import Mathlib

/-!
Verification development for the OONI data-ingestion pipeline
(`oonidata/s3feeder.py` and `oonidata/processing.py`).

Shallow embedding conventions:
- Calendar dates are modeled as `Nat` day ordinals (Python
  `date.toordinal()`); `date(2020, 10, 20).toordinal() = 737718`.
- S3 object keys and listing prefixes are modeled structurally
  (constructors for the `jsonl/...`, `raw/...` families); the string
  renderings used by the source are injective and slash-separated, so
  string-prefix matching coincides with the structural matching used here.
- Python raising inside an eagerly-consumed generator is modeled with
  `Except Unit`; a generator that yields some items and then raises is
  modeled by `GenResult` (the yielded items plus a `raised` flag).
- Python dicts built by comprehension (later duplicate keys overwrite
  earlier ones) are modeled by `pyDictGet` over the association list of
  insertions.
- Raw measurement records are modeled opaquely as strings (`Record`).
-/

/-- Result of running a Python generator to completion: the items it
yielded, and whether it terminated by raising an exception instead of
returning normally. -/
structure GenResult (α : Type) where
  yielded : List α
  raised : Bool
deriving DecidableEq, Repr

/-- Prepend one yielded item to a generator run. -/
def consGen {α : Type} (a : α) (r : GenResult α) : GenResult α :=
  ⟨a :: r.yielded, r.raised⟩

/-- Sequence two generator runs: if the first raised, the second never
runs. -/
def seqGen {α : Type} (a b : GenResult α) : GenResult α :=
  if a.raised then a else ⟨a.yielded ++ b.yielded, b.raised⟩

/-- Lookup in a Python dict built by inserting the key/value pairs of the
list in order: a later binding of the same key overwrites an earlier one
(`{k: v for ...}` comprehension semantics). -/
def pyDictGet {κ ν : Type} [DecidableEq κ] : List (κ × ν) → κ → Option ν
  | [], _ => none
  | (k, v) :: rest, key =>
    match pyDictGet rest key with
    | some v' => some v'
    | none => if k = key then some v else none

/-- Raw measurement record (the parsed JSON document), modeled opaquely. -/
abbrev Record := String

/-- Modelled from the spec: `trivial_id` (in `oonidata/utils.py`, not part
of the sources) derives a measurement UID as a stable hash of the record's
canonical byte form; it is modeled as an injective deterministic function
of the record. -/
def trivial_id (r : Record) : String := "tid:" ++ r

/-- A measurement tuple as yielded by the container readers: the record
and its measurement UID (the leading raw-bytes component of the source's
`MsmtTup` is always `None` on these paths and is elided). -/
abbrev MsmtTup := Record × String

/-- Whether the string `s` ends with the string `suf` (kernel-computable
replacement for `String.endsWith`). -/
def strEndsWith (s suf : String) : Bool :=
  suf.data.isSuffixOf s.data

/-- Model of Python `s.rsplit("/", 1)[1]`: the part of `s` after the last
`/`. When `s` contains no `/`, `rsplit` returns a one-element list and the
`[1]` subscript raises `IndexError`; that is modeled as `none`. -/
def rsplitSlash (s : String) : Option String :=
  if s.data.contains '/' then
    some (String.mk ((s.data.reverse.takeWhile fun c => c ≠ '/').reverse))
  else none

/-! ## Dates -/

/-- `date(2020, 10, 20).toordinal()`: the last day with legacy cans is
2020-10-21, and this constant appears in `get_jsonl_prefixes`. -/
def day20201020 : Nat := 737718

/-- `date(2020, 10, 21).toordinal()`. -/
def day20201021 : Nat := 737719

/-- `date_interval(start_day, end_day)` from `s3feeder.py`: a generator
over the days from `start_day` (inclusive) to `min(end_day, today)`
(exclusive). A falsy `start_day` (modeled as `none`) or `start_day ≥
today` raises `StopIteration` inside the generator body, which Python
(PEP 479) surfaces as a `RuntimeError` when the generator is iterated;
both are modeled as `Except.error`. -/
def date_interval (today : Nat) (start_day : Option Nat) (end_day : Nat) :
    Except Unit (List Nat) :=
  match start_day with
  | none => .error ()
  | some s =>
    if today ≤ s then .error ()
    else
      let stop_day := if end_day < today then end_day else today
      .ok (List.range' s (stop_day - s))

/-! ## FileEntry catalog -/

/-- The token content of a new-format filename
`<YYYYMMDDHH>_<CC>_<test>.<n>.<x>.<ext>` as `iter_file_entries` splits it:
`ts` is the day obtained from the first 8 characters of the timestamp
token, `cc` the country token, `test` and `ext` the first and fourth
pieces of splitting the third token on `.` (3 splits), and `str` the full
filename string. -/
structure FName where
  ts : Nat
  cc : String
  test : String
  ext : String
  str : String
deriving DecidableEq, Repr

/-- Structural model of an S3 object key in the minican/jsonl bucket:
either `jsonl/<dirTest>/<dirCC>/<dirDay>/<filename>` or
`raw/<dirDay>/<HH>/<CC>/<test>/<filename>` (the hour/CC/test directory
components of the raw family, unused by the embedded code, are collapsed
into `subpath`). -/
inductive S3Loc
  | jsonlLoc (dirTest dirCC : String) (dirDay : Nat) (fname : FName)
  | rawLoc (dirDay : Nat) (subpath : String) (fname : FName)
deriving DecidableEq, Repr

/-- The filename component of an object key. -/
def S3Loc.fnameOf : S3Loc → FName
  | .jsonlLoc _ _ _ f => f
  | .rawLoc _ _ f => f

/-- Structural model of the listing prefixes built by
`get_jsonl_prefixes`: `raw/<YYYYMMDD>`, `jsonl/<tn>/<cc>/`, and
`jsonl/<tn>/<cc>/<YYYYMMDD>`. -/
inductive S3Pfx
  | rawDay (day : Nat)
  | jsonlTC (tn cc : String)
  | jsonlTCD (tn cc : String) (day : Nat)
deriving DecidableEq, Repr

/-- Whether an object key lies under a listing prefix (the structural
counterpart of string-prefix matching on the rendered keys). -/
def S3Loc.under : S3Loc → S3Pfx → Bool
  | .jsonlLoc t c _ _, .jsonlTC t' c' => t = t' && c = c'
  | .jsonlLoc t c d _, .jsonlTCD t' c' d' => t = t' && c = c' && d = d'
  | .rawLoc d _ _, .rawDay d' => d = d'
  | _, _ => false

/-- `f"{p}{d:%Y%m%d}"` applied to a `jsonl/<tn>/<cc>/` search prefix. -/
def S3Pfx.withDay : S3Pfx → Nat → S3Pfx
  | .jsonlTC t c, d => .jsonlTCD t c d
  | p, _ => p

/-- An object in the S3 catalog: its key and its size in bytes. The
catalog (the state of the remote bucket) is a parameter of the listing
functions, which consume only `list_objects_v2` on it. -/
structure CatalogObj where
  loc : S3Loc
  size : Nat
deriving DecidableEq, Repr

/-- `FileEntry` from `s3feeder.py` (a `NamedTuple`). -/
structure FileEntry where
  day : Nat
  country_code : String
  test_name : String
  filename : String
  size : Nat
  ext : String
  s3path : S3Loc
  bucket_name : String
deriving DecidableEq, Repr

/-- `FileEntry.matches_filter`: Python truthiness of the strings and sets
is mirrored (an empty `country_code`/`test_name` or an empty filter set
short-circuits to acceptance). -/
def FileEntry.matches_filter (fe : FileEntry) (ccs testnames : List String) : Bool :=
  if fe.country_code != "" && !ccs.isEmpty && !ccs.contains fe.country_code then
    false
  else if fe.test_name != "" && !testnames.isEmpty && !testnames.contains fe.test_name then
    false
  else true

/-- The `FileEntry` that `iter_file_entries` builds from a listed object:
all attribute fields are parsed out of the filename tokens (not the
directory components), the size comes from the listing, and the bucket is
`MC_BUCKET_NAME`. -/
def parse_file_entry (o : CatalogObj) : FileEntry :=
  let fn := o.loc.fnameOf
  { day := fn.ts
    country_code := fn.cc
    test_name := fn.test
    filename := fn.str
    size := o.size
    ext := fn.ext
    s3path := o.loc
    bucket_name := "ooni-data-eu-fra" }

/-- `list_file_entries(prefix)` = `[fe for fe in iter_file_entries(prefix)]`:
parse every catalog object under the prefix, in catalog order. -/
def list_file_entries (catalog : List CatalogObj) (p : S3Pfx) : List FileEntry :=
  (catalog.filter fun o => o.loc.under p).map parse_file_entry

/-- `list_all_testnames()`: the distinct test-name directories under
`jsonl/` (a Python set, modeled as the deduplicated list in first-seen
order). -/
def list_all_testnames (catalog : List CatalogObj) : List String :=
  (catalog.filterMap fun o =>
    match o.loc with
    | .jsonlLoc t _ _ _ => some t
    | _ => none).eraseDups

/-- `get_search_prefixes(testnames, ccs)`: for each test name, the
country-code common prefixes `jsonl/<tn>/<cc>/` present in the bucket,
keeping only countries in `ccs` unless `ccs` is empty. -/
def get_search_prefixes (catalog : List CatalogObj) (testnames ccs : List String) :
    List S3Pfx :=
  testnames.flatMap fun tn =>
    let ccsFor :=
      (catalog.filterMap fun o =>
        match o.loc with
        | .jsonlLoc t c _ _ => if t = tn then some c else none
        | _ => none).eraseDups
    (ccsFor.filter fun cc => ccs.isEmpty || ccs.contains cc).map (S3Pfx.jsonlTC tn)

/-- `get_jsonl_prefixes(ccs, testnames, start_day, end_day)`. The
`legacy_prefixes` list (`raw/<YYYYMMDD>` for each day of
`date_interval(max(2020-10-20, start_day), end_day)`) is built first; the
`jsonl/` prefixes are only computed when `start_day < 2020-10-21`, and the
cross product with the days is used exactly when it has more than
1,000,000 elements (`if len(combos) > 1_000_000`). Errors raised by
`date_interval` propagate. -/
def get_jsonl_prefixes (catalog : List CatalogObj) (today : Nat)
    (ccs testnames : List String) (start_day end_day : Nat) :
    Except Unit (List S3Pfx) := do
  let legacyDays ← date_interval today (some (max day20201020 start_day)) end_day
  let legacy := legacyDays.map S3Pfx.rawDay
  let tns := if testnames.isEmpty then list_all_testnames catalog else testnames
  let pfxs ←
    if start_day < day20201021 then do
      let ps := get_search_prefixes catalog tns ccs
      let ivl ← date_interval today (some start_day) end_day
      let combos := ps.flatMap fun p => ivl.map fun d => (p, d)
      pure (if combos.length > 1000000 then
              combos.map fun pd => pd.1.withDay pd.2
            else ps)
    else pure ([] : List S3Pfx)
  pure (pfxs ++ legacy)

/-- `jsonl_in_range(ccs, testnames, start_day, end_day)`: list every
prefix (the worker pool's `imap_unordered` is modeled in submission
order; the claims proved about it are order-insensitive), then keep the
entries with extension `jsonl.gz` that pass `matches_filter`, fall inside
`[start_day, end_day)`, and have positive size. -/
def jsonl_in_range (catalog : List CatalogObj) (today : Nat)
    (ccs testnames : List String) (start_day end_day : Nat) :
    Except Unit (List FileEntry) := do
  let pfxs ← get_jsonl_prefixes catalog today ccs testnames start_day end_day
  let entries := pfxs.flatMap (list_file_entries catalog)
  pure (entries.filter fun fe =>
    fe.ext == "jsonl.gz" && fe.matches_filter ccs testnames &&
    decide (start_day ≤ fe.day) && decide (fe.day < end_day) &&
    decide (0 < fe.size))

/-! ## Cache and downloader -/

/-- A path in the local cache
`<cache_root>/<test_name>/<country_code>/<YYYY-MM-DD>/<filename>` as built
by `FileEntry.output_path` (the day directory is kept as the day ordinal;
its `%Y-%m-%d` rendering is injective). -/
structure CachePath where
  root : String
  tn : String
  cc : String
  day : Nat
  name : String
deriving DecidableEq, Repr

/-- `FileEntry.output_path(dst_dir)`. -/
def FileEntry.output_path (fe : FileEntry) (dst_dir : String) : CachePath :=
  ⟨dst_dir, fe.test_name, fe.country_code, fe.day, fe.filename⟩

/-- Metadata of a cached file: size in bytes and modification time. -/
structure FileStat where
  size : Nat
  mtime : Nat
deriving DecidableEq, Repr

/-- The local filesystem, as a finite map from cache paths to stats. -/
abbrev FS := List (CachePath × FileStat)

/-- `stat` of a path (`none` when the file does not exist). -/
def fsStat (fs : FS) (p : CachePath) : Option FileStat :=
  (fs.find? fun e => e.1 = p).map Prod.snd

/-- Create or overwrite a file's metadata. -/
def fsSet (fs : FS) (p : CachePath) (st : FileStat) : FS :=
  (p, st) :: fs.filter fun e => e.1 ≠ p

/-- Remove a file. -/
def fsErase (fs : FS) (p : CachePath) : FS :=
  fs.filter fun e => e.1 ≠ p

/-- Model of `Path.with_suffix(".s3tmp")` on the filename component: the
last dot-suffix is replaced by `.s3tmp` (appended when the name has no
suffix). -/
def withSuffixS3tmp (name : String) : String :=
  let parts := name.splitOn "."
  if parts.length ≤ 1 then name ++ ".s3tmp"
  else String.intercalate "." (parts.dropLast) ++ ".s3tmp"

/-- Result of `download_measurement_container`: the returned path, the
number of downloads performed, and the filesystem afterwards. -/
structure FetchResult where
  path : CachePath
  downloads : Nat
  fs : FS
deriving DecidableEq, Repr

/-- The cache-miss path of `download_measurement_container`: write the
remote bytes to the sibling `.s3tmp` file (flush and fsync), rename it
onto the destination (modeled as a single atomic state change), then
`assert file_entry.size == diskf.stat().st_size`; an assertion failure is
`Except.error`. `remote` gives the actual byte count that downloading an
entry's object produces. -/
def doDownload (now : Nat) (remote : FileEntry → Nat) (dst_dir : String)
    (fs : FS) (fe : FileEntry) : Except Unit FetchResult :=
  let diskf := fe.output_path dst_dir
  let tmpf : CachePath := { diskf with name := withSuffixS3tmp fe.filename }
  let dlsize := remote fe
  let fs1 := fsSet fs tmpf ⟨dlsize, now⟩
  let fs2 := fsSet (fsErase fs1 tmpf) diskf ⟨dlsize, now⟩
  if fe.size = dlsize then .ok ⟨diskf, 1, fs2⟩ else .error ()

/-- `download_measurement_container(s3cachedir, file_entry)`: a cache hit
(`diskf.exists() and file_entry.size == diskf.stat().st_size`) touches the
mtime and returns the path with no download; otherwise the miss path
downloads. -/
def download_measurement_container (now : Nat) (remote : FileEntry → Nat)
    (dst_dir : String) (fs : FS) (fe : FileEntry) : Except Unit FetchResult :=
  let diskf := fe.output_path dst_dir
  match fsStat fs diskf with
  | some st =>
    if fe.size = st.size then
      .ok ⟨diskf, 0, fsSet fs diskf ⟨st.size, now⟩⟩
    else doDownload now remote dst_dir fs fe
  | none => doDownload now remote dst_dir fs fe

/-! ## Container readers (`load_multiple`) -/

/-- A line of a newline-delimited JSON stream: either it parses to a
record, or `ujson.loads` raises on it. -/
inductive JsonLine
  | good (r : Record)
  | bad
deriving DecidableEq, Repr

/-- The shared loop of the `.json.lz4` and `.jsonl.gz` branches of
`load_multiple` (and of `.json` members of `.tar.lz4` cans): each line is
parsed with `ujson.loads` — with no surrounding `try`, so a line that
fails to parse raises out of the generator — and yielded with
`trivial_id` as its UID. -/
def jsonLinesGen : List JsonLine → GenResult MsmtTup
  | [] => ⟨[], false⟩
  | .bad :: _ => ⟨[], true⟩
  | .good r :: rest => consGen (r, trivial_id r) (jsonLinesGen rest)

/-- The `.jsonl.gz` branch of `load_multiple`. -/
def load_jsonl_gz (lines : List JsonLine) : GenResult MsmtTup :=
  jsonLinesGen lines

/-- The `.json.lz4` branch of `load_multiple` (same loop body). -/
def load_json_lz4 (lines : List JsonLine) : GenResult MsmtTup :=
  jsonLinesGen lines

/-- A member of a legacy `.tar.lz4` can: a `.json` member holds JSON
lines; a `.yaml` member is run through the external legacy-YAML
normalizer (`iter_yaml_msmt_normalized`, modeled from the spec as a lazy
sequence of normalized records); any other member name is skipped. -/
inductive TarLz4Member
  | jsonMember (lines : List JsonLine)
  | yamlMember (records : List Record)
  | otherMember
deriving DecidableEq, Repr

/-- The `.tar.lz4` branch of `load_multiple`: members are iterated in
order; records of both member kinds get `trivial_id` UIDs; a JSON line
that fails to parse raises out of the whole generator (there is no `try`
on this path). -/
def load_tar_lz4 : List TarLz4Member → GenResult MsmtTup
  | [] => ⟨[], false⟩
  | .jsonMember lines :: rest => seqGen (jsonLinesGen lines) (load_tar_lz4 rest)
  | .yamlMember recs :: rest =>
      seqGen ⟨recs.map fun r => (r, trivial_id r), false⟩ (load_tar_lz4 rest)
  | .otherMember :: rest => load_tar_lz4 rest

/-- The body of a minican `.post` member: either `ujson.loads` fails on
it, or it is an envelope with a `format` field (`j.get("format", "")`,
so a missing field reads as `""`) and a `content` record. -/
inductive PostBody
  | invalid
  | post (format : String) (content : Record)
deriving DecidableEq, Repr

/-- A regular-file member of a `.tar.gz` minican. -/
structure TarMember where
  name : String
  body : PostBody
deriving DecidableEq, Repr

/-- The `.tar.gz` (minican) branch of `load_multiple`: members whose name
does not end in `.post` are logged and skipped; members whose body fails
to parse are logged and skipped (this branch has a `try`); envelopes with
`format == "json"` are yielded with UID `m.name.rsplit("/", 1)[1][:-5]`
(the base filename minus the `.post` suffix — an `IndexError` from a name
with no `/` aborts the generator); `yaml` and any other format are
skipped. -/
def load_tar_gz : List TarMember → GenResult MsmtTup
  | [] => ⟨[], false⟩
  | m :: rest =>
    if strEndsWith m.name ".post" then
      match m.body with
      | .invalid => load_tar_gz rest
      | .post fmt content =>
        if fmt = "json" then
          match rsplitSlash m.name with
          | none => ⟨[], true⟩
          | some base => consGen (content, base.dropRight 5) (load_tar_gz rest)
        else load_tar_gz rest
    else load_tar_gz rest

/-! ## stream_measurements -/

/-- A single-use Python generator of file entries, as both call sites
pass one (`stream_jsonl` passes the `jsonl_in_range` generator,
`stream_cans` an `itertools.chain`): traversing it consumes it. -/
structure SPGen (α : Type) where
  remaining : List α
deriving DecidableEq, Repr

/-- Exhaust a single-use generator: the items it still holds, and the
generator afterwards (now empty). -/
def SPGen.drain {α : Type} (g : SPGen α) : List α × SPGen α :=
  (g.remaining, ⟨[]⟩)

/-- `stream_measurements(file_entries, s3cachedir, keep_s3_cache)`: first
`total_size = sum(map(lambda fe: fe.size, file_entries))` traverses the
iterator, then `for fe in file_entries` traverses it again, downloading
each entry and yielding the records `load_multiple` produces from its
file (`load` maps an entry to those records; per-file reader failures are
caught and logged at this level and do not abort the loop). Returns the
yielded measurements and the number of entries the loop downloaded. -/
def stream_measurements (load : FileEntry → List MsmtTup)
    (file_entries : SPGen FileEntry) : List MsmtTup × Nat :=
  let (sized, g1) := file_entries.drain
  let _total_size := (sized.map FileEntry.size).sum
  let (looped, _) := g1.drain
  (looped.flatMap load, looped.length)

/-! ## Observation transformer (`processing.py`) -/

/-- Modelled from the spec: a DNS query of `test_keys.queries` carries the
queried hostname and either its answers or a failure
(`oonidata/observations.py` is not part of the sources). -/
structure DNSQuery where
  hostname : String
  answers : List String
  failed : Bool
deriving DecidableEq, Repr

/-- An entry of `test_keys.tcp_connect`. -/
structure TCPConnectEntry where
  ip : String
  port : Nat
deriving DecidableEq, Repr

/-- An entry of `test_keys.tls_handshakes`: the peer address and the
certificate-validity verdict (nullable). -/
structure TLSHandshakeEntry where
  address : String
  cert_valid : Option Bool
deriving DecidableEq, Repr

/-- An entry of `test_keys.requests`. -/
structure HTTPRequestEntry where
  url : String
deriving DecidableEq, Repr

/-- The `test_keys` sub-events of a `web_connectivity` measurement used
by `web_connectivity_processor` (`network_events`, used only for
byte-counter timing enrichment of TLS observations, is elided). -/
structure WCTestKeys where
  requests : List HTTPRequestEntry
  queries : List DNSQuery
  tcp_connect : List TCPConnectEntry
  tls_handshakes : List TLSHandshakeEntry
deriving DecidableEq, Repr

/-- A DNS observation: one per resolved answer, or one failure
observation (with `answer = none`) per failed query. -/
structure DNSObs where
  domain_name : String
  answer : Option String
  is_tls_consistent : Option Bool
deriving DecidableEq, Repr

/-- A TCP observation; `domain_name` is back-annotated via
`ip_to_domain`. -/
structure TCPObs where
  ip : String
  port : Nat
  domain_name : Option String
deriving DecidableEq, Repr

/-- A TLS observation; `domain` is back-annotated via `ip_to_domain`. -/
structure TLSObs where
  ip : String
  domain : Option String
  is_certificate_valid : Option Bool
deriving DecidableEq, Repr

/-- An HTTP observation. -/
structure HTTPObs where
  request_url : String
deriving DecidableEq, Repr

/-- A surfaced web observation, tagged by category. -/
inductive WCObs
  | dns (o : DNSObs)
  | tcp (o : TCPObs)
  | tls (o : TLSObs)
  | http (o : HTTPObs)
deriving DecidableEq, Repr

/-- The four observation categories. -/
inductive WCCat
  | dns | tcp | tls | http
deriving DecidableEq, Repr

/-- Category of a surfaced observation. -/
def WCObs.cat : WCObs → WCCat
  | .dns _ => .dns
  | .tcp _ => .tcp
  | .tls _ => .tls
  | .http _ => .http

/-- Modelled from the spec: `make_dns_observations(queries)` produces one
observation per resolved answer, or one failure observation when the
query failed; `is_tls_consistent` starts unset. -/
def make_dns_observations (queries : List DNSQuery) : List DNSObs :=
  queries.flatMap fun q =>
    if q.failed then [⟨q.hostname, none, none⟩]
    else q.answers.map fun a => ⟨q.hostname, some a, none⟩

/-- Modelled from the spec: `make_tcp_observations(connects, ip_to_domain)`
produces one observation per attempted tuple, with `domain_name` looked
up from `ip_to_domain` (absence yields NULL). -/
def make_tcp_observations (connects : List TCPConnectEntry)
    (ip_to_domain : List (Option String × String)) : List TCPObs :=
  connects.map fun c => ⟨c.ip, c.port, pyDictGet ip_to_domain (some c.ip)⟩

/-- Modelled from the spec: `make_tls_observations(handshakes, _, ip_to_domain)`
produces one observation per handshake, with `domain` looked up from
`ip_to_domain`. -/
def make_tls_observations (handshakes : List TLSHandshakeEntry)
    (ip_to_domain : List (Option String × String)) : List TLSObs :=
  handshakes.map fun h => ⟨h.address, pyDictGet ip_to_domain (some h.address), h.cert_valid⟩

/-- Modelled from the spec: `make_http_observations(requests)` produces
one observation per request/response pair. -/
def make_http_observations (requests : List HTTPRequestEntry) : List HTTPObs :=
  requests.map fun r => ⟨r.url⟩

/-- The `http_observations` local of `web_connectivity_processor`. -/
def wc_http_observations (tk : WCTestKeys) : List HTTPObs :=
  make_http_observations tk.requests

/-- The `dns_observations` local of `web_connectivity_processor`. -/
def wc_dns_observations (tk : WCTestKeys) : List DNSObs :=
  make_dns_observations tk.queries

/-- `ip_to_domain = {obs.answer: obs.domain_name for obs in dns_observations}`:
the insertion list of the dict comprehension (later bindings of the same
answer overwrite earlier ones under `pyDictGet`). -/
def wc_ip_to_domain (tk : WCTestKeys) : List (Option String × String) :=
  (wc_dns_observations tk).map fun o => (o.answer, o.domain_name)

/-- The `tcp_observations` local of `web_connectivity_processor`. -/
def wc_tcp_observations (tk : WCTestKeys) : List TCPObs :=
  make_tcp_observations tk.tcp_connect (wc_ip_to_domain tk)

/-- The `tls_observations` local of `web_connectivity_processor`. -/
def wc_tls_observations (tk : WCTestKeys) : List TLSObs :=
  make_tls_observations tk.tls_handshakes (wc_ip_to_domain tk)

/-- `tls_valid_domain_to_ip = {obs.domain: obs.is_certificate_valid for obs in tls_observations}`:
keyed by the TLS observation's domain. -/
def wc_tls_valid_domain_to_ip (tk : WCTestKeys) : List (Option String × Option Bool) :=
  (wc_tls_observations tk).map fun o => (o.domain, o.is_certificate_valid)

/-- The `enriched_dns_observations` loop:
`dns_obs.is_tls_consistent = tls_valid_domain_to_ip.get(dns_obs.answer, None)`
— the lookup key is the DNS observation's `answer`, and a stored `None`
value and a missing key both read back as NULL (`Option.join`). -/
def wc_enriched_dns_observations (tk : WCTestKeys) : List DNSObs :=
  (wc_dns_observations tk).map fun o =>
    { o with is_tls_consistent := (pyDictGet (wc_tls_valid_domain_to_ip tk) o.answer).join }

/-- `web_connectivity_processor`, as the sequence of observation rows it
writes to the database, in write order: the HTTP observations are written
first, then TCP, then TLS, and the enriched DNS observations last. -/
def web_connectivity_processor (tk : WCTestKeys) : List WCObs :=
  (wc_http_observations tk).map WCObs.http
    ++ (wc_tcp_observations tk).map WCObs.tcp
    ++ (wc_tls_observations tk).map WCObs.tls
    ++ (wc_enriched_dns_observations tk).map WCObs.dns

/-! ## Batch driver (`process_day`) -/

/-- The loop body of `process_day` on the raw measurements of a day:
records with index below `start_at_idx` are skipped; each remaining
record is loaded and dispatched to its processor inside a
`try ... except Exception: pprint(...); raise exc` — a failure is
re-raised, aborting the whole day. `fails` says whether loading or
processing a record raises. Returns the successfully processed records. -/
def process_day_go (fails : Record → Bool) (start_at_idx : Nat) :
    Nat → List Record → GenResult Record
  | _, [] => ⟨[], false⟩
  | idx, r :: rest =>
    if idx < start_at_idx then process_day_go fails start_at_idx (idx + 1) rest
    else if fails r then ⟨[], true⟩
    else consGen r (process_day_go fails start_at_idx (idx + 1) rest)

/-- `process_day(db, day, start_at_idx)` over the day's raw measurement
stream. -/
def process_day_model (fails : Record → Bool) (start_at_idx : Nat)
    (msmts : List Record) : GenResult Record :=
  process_day_go fails start_at_idx 0 msmts

/-! ## Spec-side definitions and concrete instances used by the theorems -/

/-- Projection of an HTTP observation out of a surfaced row. -/
def WCObs.httpOf : WCObs → Option HTTPObs
  | .http o => some o
  | _ => none

/-- Projection of a TCP observation out of a surfaced row. -/
def WCObs.tcpOf : WCObs → Option TCPObs
  | .tcp o => some o
  | _ => none

/-- Projection of a TLS observation out of a surfaced row. -/
def WCObs.tlsOf : WCObs → Option TLSObs
  | .tls o => some o
  | _ => none

/-- Projection of a DNS observation out of a surfaced row. -/
def WCObs.dnsOf : WCObs → Option DNSObs
  | .dns o => some o
  | _ => none

/-- The set of records the claim says a `.tar.gz` minican reader yields:
exactly the `.post` envelope members whose `format` field is `json`, each
paired with the member's base filename minus the trailing `.post` suffix
as UID. Written from the claim's words, to be compared with
`load_tar_gz`. -/
def minican_expected (members : List TarMember) : List MsmtTup :=
  members.filterMap fun m =>
    if strEndsWith m.name ".post" then
      match m.body with
      | .post fmt c =>
        if fmt = "json" then (rsplitSlash m.name).map fun base => (c, base.dropRight 5)
        else none
      | .invalid => none
    else none

/-- A concrete new-format filename token set
(`2020112800_IT_webconnectivity.l.0.jsonl.gz`, day ordinal 737741 =
2020-11-12 is irrelevant to the claims; what matters is consistency). -/
def exFName : FName :=
  ⟨737741, "IT", "webconnectivity", "jsonl.gz", "2020111200_IT_webconnectivity.l.0.jsonl.gz"⟩

/-- A concrete `jsonl/` object key. -/
def exLoc : S3Loc := .jsonlLoc "webconnectivity" "IT" 737741 exFName

/-- A concrete `FileEntry` (as `iter_file_entries` would parse `exLoc`
with size 100). -/
def exEntry : FileEntry := parse_file_entry ⟨exLoc, 100⟩

/-- The filename token set of the catalog object used by the
catalog-listing counterexamples: day 737719 = 2020-10-21. -/
def cexFName : FName :=
  ⟨737719, "IT", "webconnectivity", "jsonl.gz", "2020102100_IT_webconnectivity.l.0.jsonl.gz"⟩

/-- A zero-size `jsonl/` catalog object dated 2020-10-21. -/
def cexObjZero : CatalogObj := ⟨.jsonlLoc "webconnectivity" "IT" 737719 cexFName, 0⟩

/-- The same catalog object with size 100. -/
def cexObj100 : CatalogObj := ⟨.jsonlLoc "webconnectivity" "IT" 737719 cexFName, 100⟩

/-- A one-object catalog holding the zero-size object. -/
def catZero : List CatalogObj := [cexObjZero]

/-- A one-object catalog holding the 100-byte object. -/
def cat100 : List CatalogObj := [cexObj100]

/-- A concrete `web_connectivity` `test_keys` with one sub-event of each
category: the DNS query for `d` resolves to `1.2.3.4`, and the TLS
handshake with `1.2.3.4` validates the certificate. -/
def exTK : WCTestKeys :=
  { requests := [⟨"http://d/"⟩]
    queries := [⟨"d", ["1.2.3.4"], false⟩]
    tcp_connect := [⟨"1.2.3.4", 80⟩]
    tls_handshakes := [⟨"1.2.3.4", some true⟩] }

/-! ## Helper lemmas -/

/-- `pyDictGet` over a list of pairs `(f x, g x)` returns `g` of the last
element whose key `f x` matches: the "most recently observed wins"
semantics of a Python dict comprehension. -/
theorem pyDictGet_map {α κ ν : Type} [DecidableEq κ]
    (l : List α) (f : α → κ) (g : α → ν) (key : κ) :
    pyDictGet (l.map fun x => (f x, g x)) key
      = (l.reverse.find? fun x => decide (f x = key)).map g := by
  induction l with
  | nil => rfl
  | cons x xs ih =>
    simp only [List.map_cons, pyDictGet, List.reverse_cons, List.find?_append, ih]
    cases hfind : xs.reverse.find? fun x => decide (f x = key) with
    | some v => simp [Option.or]
    | none =>
      simp only [Option.map_none, Option.or, List.find?]
      by_cases h : f x = key
      · simp [h]
      · simp [h]

/-- Joining the map of an `Option`-valued function is `bind`. -/
theorem optJoinMap {α β : Type} (o : Option α) (g : α → Option β) :
    (o.map g).join = o.bind g := by
  cases o <;> rfl

/-- `filterMap` of a faithful projection over a mapped constructor
recovers the original list. -/
theorem filterMap_proj_same {β : Type} (proj : WCObs → Option β) (mk : β → WCObs)
    (h : ∀ b, proj (mk b) = some b) (l : List β) :
    (l.map mk).filterMap proj = l := by
  induction l with
  | nil => rfl
  | cons b bs ih => simp [List.filterMap_cons, h, ih]

/-- `filterMap` of a projection over a mapped foreign constructor is
empty. -/
theorem filterMap_proj_other {β γ : Type} (proj : WCObs → Option β) (mk : γ → WCObs)
    (h : ∀ c, proj (mk c) = none) (l : List γ) :
    (l.map mk).filterMap proj = [] := by
  induction l with
  | nil => rfl
  | cons c cs ih => simp [List.filterMap_cons, h, ih]

/-- Mapping `WCObs.cat` over a mapped constructor yields a constant
category list. -/
theorem map_cat_mk {β : Type} (mk : β → WCObs) (c : WCCat)
    (h : ∀ b, (mk b).cat = c) (l : List β) :
    (l.map mk).map WCObs.cat = List.replicate l.length c := by
  induction l with
  | nil => rfl
  | cons b bs ih => simp [h, ih, List.replicate_succ]

/-- The certificate-validity lookup that `web_connectivity_processor`
performs for a DNS observation equals the validity of the last TLS
observation whose `domain` equals the looked-up key (NULL when none
matches or the stored validity is itself NULL). -/
theorem wc_tls_lookup_eq (tk : WCTestKeys) (key : Option String) :
    (pyDictGet (wc_tls_valid_domain_to_ip tk) key).join
      = ((wc_tls_observations tk).reverse.find? fun t => decide (t.domain = key)).bind
          (fun t => t.is_certificate_valid) := by
  unfold wc_tls_valid_domain_to_ip
  rw [pyDictGet_map]
  exact optJoinMap _ _

/-- `process_day_go` with `start_at_idx = 0` processes the leading
successful records and aborts at the first failing one. -/
theorem process_day_go_abort (fails : Record → Bool) (r : Record)
    (rest : List Record) (goods : List Record) :
    ∀ idx, (∀ g ∈ goods, fails g = false) → fails r = true →
    process_day_go fails 0 idx (goods ++ r :: rest) = ⟨goods, true⟩ := by
  induction goods with
  | nil =>
    intro idx _ hr
    simp [process_day_go, hr]
  | cons g gs ih =>
    intro idx hg hr
    have hgf : fails g = false := hg g (by simp)
    have h2 := ih (idx + 1) (fun x hx => hg x (by simp [hx])) hr
    simp only [List.cons_append, process_day_go, Nat.not_lt_zero, if_false, hgf,
      Bool.false_eq_true, consGen, List.append_eq]
    rw [h2]

/-! ## Claim theorems -/

/-- Claim C10 (confirmed): iterating `date_interval(start_day, end_day)`
with a falsy `start_day` or `start_day ≥ today` raises (a `StopIteration`
inside the generator, surfaced as `RuntimeError`) rather than yielding an
empty sequence; every yielded day is strictly before today; and for
`end_day` past today the iteration silently stops at today. -/
theorem c10_date_interval (today e s : Nat) :
    date_interval today none e = .error ()
    ∧ (today ≤ s → date_interval today (some s) e = .error ())
    ∧ (∀ l, date_interval today (some s) e = .ok l → ∀ d ∈ l, d < today)
    ∧ (s < today → today < e →
        date_interval today (some s) e = .ok (List.range' s (today - s))) := by
  refine ⟨rfl, ?_, ?_, ?_⟩
  · intro h
    simp [date_interval, h]
  · intro l hl d hd
    unfold date_interval at hl
    by_cases h : today ≤ s
    · simp [h] at hl
    · simp only [h, if_false] at hl
      injection hl with hl
      subst hl
      rcases List.mem_range'.mp hd with ⟨i, hi, rfl⟩
      by_cases he : e < today <;> simp [he] at hi ⊢ <;> omega
  · intro hs he
    have h1 : ¬ today ≤ s := by omega
    have h2 : ¬ e < today := by omega
    simp [date_interval, h1, h2]

/-- Claim C10 witness: concrete evaluations of the three behaviors. -/
theorem c10_date_interval_witness :
    date_interval 10 (some 12) 20 = .error ()
    ∧ date_interval 10 (some 3) 20 = .ok [3, 4, 5, 6, 7, 8, 9] := by
  constructor
  · exact (c10_date_interval 10 20 12).2.1 (by decide)
  · have h := (c10_date_interval 10 20 3).2.2.2 (by decide) (by decide)
    rw [h]
    rfl

/-- Claim C2 (code bug): `stream_measurements` first computes
`total_size = sum(map(lambda fe: fe.size, file_entries))`, which exhausts
the single-use generator both call sites pass; the subsequent
`for fe in file_entries` loop therefore iterates an exhausted iterator:
for every input, no entry is downloaded and no measurement is yielded —
every entry of the input sequence is silently dropped, contradicting the
claim. The conjuncts evaluate the model on an arbitrary input and on the
concrete failing input `⟨[exEntry]⟩` whose file holds one measurement. -/
theorem c2_stream_measurements_drops_all :
    (∀ (load : FileEntry → List MsmtTup) (g : SPGen FileEntry),
        stream_measurements load g = ([], 0))
    ∧ stream_measurements (fun _ => [("m1", trivial_id "m1")]) ⟨[exEntry]⟩ = ([], 0)
    ∧ (fun (_ : FileEntry) => [("m1", trivial_id "m1")]) exEntry ≠ [] := by
  refine ⟨fun load g => rfl, rfl, by decide⟩

/-- Claim C3 counterexample: on a measurement with one observation of
each category, the surfaced write order of `web_connectivity_processor`
is HTTP, TCP, TLS, DNS — not the claimed DNS, TCP, TLS, HTTP. -/
theorem c3_write_order_cex :
    (web_connectivity_processor exTK).map WCObs.cat
        = [WCCat.http, WCCat.tcp, WCCat.tls, WCCat.dns]
    ∧ [WCCat.http, WCCat.tcp, WCCat.tls, WCCat.dns]
        ≠ [WCCat.dns, WCCat.tcp, WCCat.tls, WCCat.http] := by
  constructor
  · rfl
  · decide

/-- Claim C3 (amended): for every measurement the observations are
written in category order HTTP first, then TCP, then TLS, then the
enriched DNS observations last, and within each category in the order of
the source lists of `test_keys`. -/
theorem c3_write_order (tk : WCTestKeys) :
    (web_connectivity_processor tk).map WCObs.cat
      = List.replicate (wc_http_observations tk).length WCCat.http
        ++ List.replicate (wc_tcp_observations tk).length WCCat.tcp
        ++ List.replicate (wc_tls_observations tk).length WCCat.tls
        ++ List.replicate (wc_enriched_dns_observations tk).length WCCat.dns
    ∧ (web_connectivity_processor tk).filterMap WCObs.httpOf = wc_http_observations tk
    ∧ (web_connectivity_processor tk).filterMap WCObs.tcpOf = wc_tcp_observations tk
    ∧ (web_connectivity_processor tk).filterMap WCObs.tlsOf = wc_tls_observations tk
    ∧ (web_connectivity_processor tk).filterMap WCObs.dnsOf
        = wc_enriched_dns_observations tk := by
  unfold web_connectivity_processor
  refine ⟨?_, ?_, ?_, ?_, ?_⟩
  · simp only [List.map_append]
    rw [map_cat_mk WCObs.http WCCat.http (fun _ => rfl),
      map_cat_mk WCObs.tcp WCCat.tcp (fun _ => rfl),
      map_cat_mk WCObs.tls WCCat.tls (fun _ => rfl),
      map_cat_mk WCObs.dns WCCat.dns (fun _ => rfl)]
  · simp only [List.filterMap_append]
    rw [filterMap_proj_same WCObs.httpOf WCObs.http (fun _ => rfl),
      filterMap_proj_other WCObs.httpOf WCObs.tcp (fun _ => rfl),
      filterMap_proj_other WCObs.httpOf WCObs.tls (fun _ => rfl),
      filterMap_proj_other WCObs.httpOf WCObs.dns (fun _ => rfl)]
    simp
  · simp only [List.filterMap_append]
    rw [filterMap_proj_same WCObs.tcpOf WCObs.tcp (fun _ => rfl),
      filterMap_proj_other WCObs.tcpOf WCObs.http (fun _ => rfl),
      filterMap_proj_other WCObs.tcpOf WCObs.tls (fun _ => rfl),
      filterMap_proj_other WCObs.tcpOf WCObs.dns (fun _ => rfl)]
    simp
  · simp only [List.filterMap_append]
    rw [filterMap_proj_same WCObs.tlsOf WCObs.tls (fun _ => rfl),
      filterMap_proj_other WCObs.tlsOf WCObs.http (fun _ => rfl),
      filterMap_proj_other WCObs.tlsOf WCObs.tcp (fun _ => rfl),
      filterMap_proj_other WCObs.tlsOf WCObs.dns (fun _ => rfl)]
    simp
  · simp only [List.filterMap_append]
    rw [filterMap_proj_same WCObs.dnsOf WCObs.dns (fun _ => rfl),
      filterMap_proj_other WCObs.dnsOf WCObs.http (fun _ => rfl),
      filterMap_proj_other WCObs.dnsOf WCObs.tcp (fun _ => rfl),
      filterMap_proj_other WCObs.dnsOf WCObs.tls (fun _ => rfl)]
    simp

/-- Claim C1 counterexample: `exTK` has the DNS answer
`(d, 1.2.3.4)` and a TLS observation for domain `d` with
`is_certificate_valid = some true`, yet the surfaced DNS observation has
`is_tls_consistent = none`, because the code looks the domain-keyed map
up by the DNS *answer* (`tls_valid_domain_to_ip.get(dns_obs.answer)`). -/
theorem c1_tls_consistency_cex :
    wc_tls_observations exTK = [⟨"1.2.3.4", some "d", some true⟩]
    ∧ wc_enriched_dns_observations exTK = [⟨"d", some "1.2.3.4", none⟩]
    ∧ (none : Option Bool) ≠ some true := by
  refine ⟨rfl, rfl, by decide⟩

/-- Claim C1 (amended): the DNS observation's `is_tls_consistent` is the
result of looking its *answer* up in the map keyed by TLS-observation
domain: it equals `V` exactly when the most recent TLS observation whose
back-annotated `domain` equals the DNS answer has validity `V`, and is
NULL when no TLS observation's domain equals the answer (a TLS handshake
for the DNS observation's own domain does not set it unless that domain
equals the answer). -/
theorem c1_is_tls_consistent_lookup (tk : WCTestKeys) :
    (wc_enriched_dns_observations tk).map (fun o => o.is_tls_consistent)
      = (wc_dns_observations tk).map (fun o =>
          ((wc_tls_observations tk).reverse.find? fun t => decide (t.domain = o.answer)).bind
            (fun t => t.is_certificate_valid)) := by
  unfold wc_enriched_dns_observations
  rw [List.map_map]
  exact List.map_congr_left fun o _ => wc_tls_lookup_eq tk o.answer

/-- Claim C9 (confirmed): `ip_to_domain` is a dict comprehension over the
DNS observations, so an IP answered under several domains maps to the
domain of the most recently observed (last in measurement order) DNS
observation answering it; the TCP and TLS observations receive exactly
that domain for their IP (`make_tcp_observations` /
`make_tls_observations` are modelled from the spec). -/
theorem c9_ip_to_domain_last_wins (tk : WCTestKeys) (ip : String) :
    pyDictGet (wc_ip_to_domain tk) (some ip)
      = ((wc_dns_observations tk).reverse.find? fun o => decide (o.answer = some ip)).map
          (fun o => o.domain_name)
    ∧ (wc_tcp_observations tk).map (fun o => (o.ip, o.domain_name))
      = tk.tcp_connect.map (fun c => (c.ip, pyDictGet (wc_ip_to_domain tk) (some c.ip)))
    ∧ (wc_tls_observations tk).map (fun o => (o.ip, o.domain))
      = tk.tls_handshakes.map (fun h => (h.address, pyDictGet (wc_ip_to_domain tk) (some h.address))) := by
  refine ⟨?_, ?_, ?_⟩
  · unfold wc_ip_to_domain
    exact pyDictGet_map (wc_dns_observations tk) (fun o => o.answer) (fun o => o.domain_name) (some ip)
  · unfold wc_tcp_observations make_tcp_observations
    rw [List.map_map]
    rfl
  · unfold wc_tls_observations make_tls_observations
    rw [List.map_map]
    rfl

/-- Claim C4 counterexample: in the `.jsonl.gz` reader a malformed JSON
line aborts the container: of `[good "a", bad, good "b"]` only the first
record is yielded, the generator raises, and the record after the bad
line is never yielded — it is not "only that record skipped". -/
theorem c4_record_skip_cex :
    load_jsonl_gz [.good "a", .bad, .good "b"] = ⟨[("a", trivial_id "a")], true⟩
    ∧ ("b", trivial_id "b") ∉ (load_jsonl_gz [.good "a", .bad, .good "b"]).yielded := by
  refine ⟨rfl, by decide⟩

/-- Claim C4 (amended): only the `.tar.gz` minican reader skips a record
whose JSON fails to parse and continues with the rest; in the
`.jsonl.gz`/`.json.lz4` readers (and the `.json` members of `.tar.lz4`
cans) a malformed line raises out of the generator, so the records before
it are yielded and everything after it is dropped; and `process_day`
re-raises the first record whose loading or processing fails, aborting
the day after the preceding records. -/
theorem c4_error_isolation :
    (∀ (m : TarMember) (rest : List TarMember), m.body = .invalid →
        load_tar_gz (m :: rest) = load_tar_gz rest)
    ∧ (∀ (goods : List Record) (rest : List JsonLine),
        load_jsonl_gz (goods.map JsonLine.good ++ JsonLine.bad :: rest)
          = ⟨goods.map fun r => (r, trivial_id r), true⟩)
    ∧ (∀ (lines : List JsonLine) (rest : List TarLz4Member),
        (jsonLinesGen lines).raised = true →
        load_tar_lz4 (.jsonMember lines :: rest) = ⟨(jsonLinesGen lines).yielded, true⟩)
    ∧ (∀ (fails : Record → Bool) (goods : List Record) (r : Record) (rest : List Record),
        (∀ g ∈ goods, fails g = false) → fails r = true →
        process_day_model fails 0 (goods ++ r :: rest) = ⟨goods, true⟩) := by
  refine ⟨?_, ?_, ?_, ?_⟩
  · intro m rest h
    by_cases hp : strEndsWith m.name ".post" = true
    · simp [load_tar_gz, hp, h]
    · simp [load_tar_gz, hp]
  · intro goods
    induction goods with
    | nil => intro rest; rfl
    | cons a as ih =>
      intro rest
      have h2 := ih rest
      simp only [load_jsonl_gz, List.map_cons, List.cons_append, jsonLinesGen, consGen,
        List.append_eq] at h2 ⊢
      rw [h2]
  · intro lines rest h
    simp only [load_tar_lz4, seqGen, h, if_true]
    rw [← h]
  · intro fails goods r rest hg hr
    simpa [process_day_model] using process_day_go_abort fails r rest goods 0 hg hr

/-- Claim C4 witness: concrete instances of the three behaviors. -/
theorem c4_error_isolation_witness :
    load_tar_gz [⟨"a/x.post", .invalid⟩, ⟨"a/y.post", .post "json" "r"⟩]
        = load_tar_gz [⟨"a/y.post", .post "json" "r"⟩]
    ∧ load_jsonl_gz [.good "a", .bad, .good "b"] = ⟨[("a", trivial_id "a")], true⟩
    ∧ process_day_model (fun r => r == "x") 0 (["a"] ++ "x" :: []) = ⟨["a"], true⟩ := by
  refine ⟨c4_error_isolation.1 _ _ rfl, ?_, c4_error_isolation.2.2.2 _ ["a"] "x" [] (by decide) (by decide)⟩
  exact c4_error_isolation.2.1 ["a"] [.good "b"]

/-- Claim C8 counterexample: a minican whose single member `x.post` is a
well-formed json-format envelope is not yielded at all: the member name
contains no `/`, so `m.name.rsplit("/", 1)[1]` raises `IndexError` and
the generator aborts — the reader does not yield every json `.post`
envelope. -/
theorem c8_minican_cex :
    load_tar_gz [⟨"x.post", .post "json" "rec"⟩] = ⟨[], true⟩
    ∧ strEndsWith "x.post" ".post" = true
    ∧ (⟨[], true⟩ : GenResult MsmtTup) ≠ ⟨[("rec", "x")], false⟩ := by
  refine ⟨rfl, rfl, by decide⟩

/-- Claim C8 (amended): provided every json-format `.post` member's name
contains a directory separator (otherwise the `rsplit("/", 1)[1]`
subscript raises `IndexError` and aborts the iteration there), the
`.tar.gz` reader yields exactly the `.post` envelopes whose `format`
field is `json` — yaml-format and invalid envelopes are skipped, never
yielded — with UID the member's base filename minus the trailing `.post`
suffix; the legacy readers (`.jsonl.gz`, `.json.lz4`, `.tar.lz4`
members) instead derive every yielded UID as the stable hash
`trivial_id` of the record itself. -/
theorem c8_minican_uid :
    (∀ members : List TarMember,
      (∀ m ∈ members, ∀ c : Record, m.body = .post "json" c →
          strEndsWith m.name ".post" = true → (rsplitSlash m.name).isSome = true) →
      load_tar_gz members = ⟨minican_expected members, false⟩)
    ∧ (∀ lines : List JsonLine, ∀ x ∈ (load_jsonl_gz lines).yielded, x.2 = trivial_id x.1)
    ∧ (∀ lines : List JsonLine, ∀ x ∈ (load_json_lz4 lines).yielded, x.2 = trivial_id x.1)
    ∧ (∀ members : List TarLz4Member, ∀ x ∈ (load_tar_lz4 members).yielded,
        x.2 = trivial_id x.1) := by
  have key : ∀ (lines : List JsonLine) (x : MsmtTup),
      x ∈ (jsonLinesGen lines).yielded → x.2 = trivial_id x.1 := by
    intro lines
    induction lines with
    | nil => intro x hx; simp [jsonLinesGen] at hx
    | cons l rest ih =>
      intro x hx
      cases l with
      | bad => simp [jsonLinesGen] at hx
      | good r =>
        simp only [jsonLinesGen, consGen, List.mem_cons] at hx
        rcases hx with rfl | hx
        · rfl
        · exact ih x hx
  refine ⟨?_, key, key, ?_⟩
  · intro members
    induction members with
    | nil => intro _; rfl
    | cons m ms ih =>
      intro h
      have hrest := ih fun m' hm' c hc hp => h m' (List.mem_cons_of_mem _ hm') c hc hp
      by_cases hp : strEndsWith m.name ".post" = true
      · cases hb : m.body with
        | invalid =>
          simp only [load_tar_gz, minican_expected, List.filterMap_cons, hp, if_true, hb]
          exact hrest
        | post fmt c =>
          by_cases hf : fmt = "json"
          · subst hf
            have hsome := h m (List.mem_cons_self _ _) c hb hp
            cases hs : rsplitSlash m.name with
            | none => rw [hs] at hsome; simp at hsome
            | some base =>
              simp only [load_tar_gz, minican_expected, List.filterMap_cons, hp, if_true, hb,
                hs, consGen, hrest]
              rfl
          · simp only [load_tar_gz, minican_expected, List.filterMap_cons, hp, if_true, hb,
              hf, if_false]
            exact hrest
      · simp only [load_tar_gz, minican_expected, List.filterMap_cons, hp, if_false]
        exact hrest
  · intro members
    induction members with
    | nil => intro x hx; simp [load_tar_lz4] at hx
    | cons m ms ih =>
      intro x hx
      cases m with
      | jsonMember lines =>
        simp only [load_tar_lz4, seqGen] at hx
        by_cases hr : (jsonLinesGen lines).raised = true
        · rw [if_pos hr] at hx
          exact key lines x hx
        · rw [if_neg hr] at hx
          rcases List.mem_append.mp hx with hx | hx
          · exact key lines x hx
          · exact ih x hx
      | yamlMember recs =>
        simp only [load_tar_lz4, seqGen, if_false] at hx
        rcases List.mem_append.mp hx with hx | hx
        · rcases List.mem_map.mp hx with ⟨r, _, rfl⟩
          rfl
        · exact ih x hx
      | otherMember =>
        simp only [load_tar_lz4] at hx
        exact ih x hx

/-- Claim C8 witness: a minican member with a directory separator in its
name is yielded with the base filename minus `.post` as UID, and a legacy
line's UID is the record hash. -/
theorem c8_minican_uid_witness :
    load_tar_gz [⟨"a/b.post", .post "json" "r"⟩]
        = ⟨minican_expected [⟨"a/b.post", .post "json" "r"⟩], false⟩
    ∧ minican_expected [⟨"a/b.post", .post "json" "r"⟩] = [("r", "b")]
    ∧ ("r", trivial_id "r").2 = trivial_id ("r", trivial_id "r").1 := by
  refine ⟨c8_minican_uid.1 _ ?_, rfl, c8_minican_uid.2.1 [.good "r"] _ (by decide)⟩
  intro m hm c hc hp
  rcases List.mem_singleton.mp hm with rfl
  rfl

/-- Stat of a freshly written path. -/
theorem fsStat_fsSet (fs : FS) (p : CachePath) (st : FileStat) :
    fsStat (fsSet fs p st) p = some st := by
  simp [fsStat, fsSet, List.find?_cons]

/-- Claim C7 (confirmed): when the cache file at
`<cache_root>/<test_name>/<country>/<YYYY-MM-DD>/<filename>` exists with
on-disk size equal to the entry's size, `download_measurement_container`
performs zero downloads, touches the file's mtime, and returns that same
path; otherwise it runs the download path (`doDownload`: write the
sibling `.s3tmp` file, fsync, atomic rename), which performs exactly one
download, leaves the destination with the downloaded size, and succeeds
precisely when the post-rename size equals the expected size (the
`assert`). -/
theorem c7_cache_fetch (now : Nat) (remote : FileEntry → Nat) (root : String)
    (fs : FS) (fe : FileEntry) :
    (∀ st, fsStat fs (fe.output_path root) = some st → fe.size = st.size →
      download_measurement_container now remote root fs fe
        = .ok ⟨fe.output_path root, 0, fsSet fs (fe.output_path root) ⟨st.size, now⟩⟩)
    ∧ ((∀ st, fsStat fs (fe.output_path root) = some st → fe.size ≠ st.size) →
      download_measurement_container now remote root fs fe
        = doDownload now remote root fs fe)
    ∧ (remote fe = fe.size →
        ∀ res, doDownload now remote root fs fe = .ok res →
          res.path = fe.output_path root ∧ res.downloads = 1
            ∧ fsStat res.fs (fe.output_path root) = some ⟨fe.size, now⟩)
    ∧ (remote fe ≠ fe.size → doDownload now remote root fs fe = .error ()) := by
  refine ⟨?_, ?_, ?_, ?_⟩
  · intro st hst heq
    simp only [download_measurement_container, hst]
    rw [if_pos heq]
  · intro hmiss
    simp only [download_measurement_container]
    cases hst : fsStat fs (fe.output_path root) with
    | none => rfl
    | some st => simp [hmiss st hst]
  · intro hrem res h
    simp only [doDownload] at h
    rw [if_pos hrem.symm] at h
    injection h with h
    subst h
    refine ⟨rfl, rfl, ?_⟩
    rw [hrem] at *
    exact fsStat_fsSet _ _ _
  · intro hrem
    simp only [doDownload]
    rw [if_neg fun hh => hrem hh.symm]

/-- Claim C7 witness: a populated cache is a hit with zero downloads and
a touched mtime; a download whose size does not match the entry is a
fatal assertion error. -/
theorem c7_cache_fetch_witness :
    download_measurement_container 9 (fun _ => 100) "cache"
        [(exEntry.output_path "cache", ⟨100, 7⟩)] exEntry
      = .ok ⟨exEntry.output_path "cache", 0,
          fsSet [(exEntry.output_path "cache", ⟨100, 7⟩)] (exEntry.output_path "cache") ⟨100, 9⟩⟩
    ∧ doDownload 9 (fun _ => 99) "cache" [] exEntry = .error () :=
  ⟨(c7_cache_fetch 9 (fun _ => 100) "cache" [(exEntry.output_path "cache", ⟨100, 7⟩)] exEntry).1
      ⟨100, 7⟩ rfl rfl,
   (c7_cache_fetch 9 (fun _ => 99) "cache" [] exEntry).2.2.2 (by decide)⟩

/-- Bind of an `ok` value. -/
theorem except_bind_ok {ε α β : Type} (a : α) (f : α → Except ε β) :
    (Except.ok a : Except ε α) >>= f = f a := rfl

/-- Evaluation of `get_jsonl_prefixes` when `start_day < 2020-10-21` and
both `date_interval` calls succeed: the result is the `jsonl/` prefixes
(the cross product with the days exactly when it exceeds 1,000,000
combinations, the bare search prefixes otherwise) followed by the daily
`raw/` prefixes. -/
theorem get_jsonl_prefixes_ok (catalog : List CatalogObj) (today : Nat)
    (ccs tns : List String) (s e : Nat) (legacyDays ivl : List Nat)
    (hs : s < day20201021)
    (h1 : date_interval today (some (max day20201020 s)) e = .ok legacyDays)
    (h2 : date_interval today (some s) e = .ok ivl) :
    get_jsonl_prefixes catalog today ccs tns s e
      = .ok ((let tns2 := if tns.isEmpty then list_all_testnames catalog else tns
              let ps := get_search_prefixes catalog tns2 ccs
              let combos := ps.flatMap fun p => ivl.map fun d => (p, d)
              if combos.length > 1000000 then combos.map fun pd => pd.1.withDay pd.2 else ps)
            ++ legacyDays.map S3Pfx.rawDay) := by
  unfold get_jsonl_prefixes
  rw [h1, except_bind_ok, if_pos hs, h2, except_bind_ok]
  rfl

/-- Claim C5 counterexample: a query with one search prefix and two days
(2 combinations, well below 1,000,000) returns the undated
`jsonl/<tn>/<cc>/` search prefix (plus the daily `raw/` prefixes), not
the claimed narrower cross-product prefixes: no day-refined `jsonl`
prefix is enumerated. -/
theorem c5_threshold_cex :
    get_jsonl_prefixes catZero 737800 ["IT"] ["webconnectivity"] 737718 737720
      = .ok [S3Pfx.jsonlTC "webconnectivity" "IT", S3Pfx.rawDay 737718, S3Pfx.rawDay 737719]
    ∧ S3Pfx.jsonlTCD "webconnectivity" "IT" 737718
        ∉ [S3Pfx.jsonlTC "webconnectivity" "IT", S3Pfx.rawDay 737718, S3Pfx.rawDay 737719]
    ∧ S3Pfx.jsonlTCD "webconnectivity" "IT" 737719
        ∉ [S3Pfx.jsonlTC "webconnectivity" "IT", S3Pfx.rawDay 737718, S3Pfx.rawDay 737719] := by
  refine ⟨rfl, by decide, by decide⟩

/-- Claim C5 (amended): the threshold acts in the opposite direction of
the claim (and of the code's own comment): when the number of
search-prefix × day combinations is at or below 1,000,000 the catalog
enumerates the undated per-(test_name, country) search prefixes and
filters days in memory, and when it exceeds 1,000,000 it enumerates the
cross-product day-refined prefixes; the daily `raw/` prefixes are
appended in both cases (and `jsonl/` prefixes are enumerated at all only
when `start_day < 2020-10-21`). -/
theorem c5_threshold_direction (catalog : List CatalogObj) (today : Nat)
    (ccs tns : List String) (s e : Nat) (ps : List S3Pfx) (legacyDays ivl : List Nat)
    (hs : s < day20201021)
    (h1 : date_interval today (some (max day20201020 s)) e = .ok legacyDays)
    (h2 : date_interval today (some s) e = .ok ivl)
    (h3 : get_jsonl_prefixes catalog today ccs tns s e = .ok ps) :
    let tns2 := if tns.isEmpty then list_all_testnames catalog else tns
    let sps := get_search_prefixes catalog tns2 ccs
    let combos := sps.flatMap fun p => ivl.map fun d => (p, d)
    (combos.length ≤ 1000000 → ps = sps ++ legacyDays.map S3Pfx.rawDay)
    ∧ (1000000 < combos.length →
        ps = (combos.map fun pd => pd.1.withDay pd.2) ++ legacyDays.map S3Pfx.rawDay) := by
  rw [get_jsonl_prefixes_ok catalog today ccs tns s e legacyDays ivl hs h1 h2] at h3
  injection h3 with h3
  subst h3
  intro tns2 sps combos
  constructor
  · intro hle
    rw [if_neg (Nat.not_lt.mpr hle)]
  · intro hgt
    rw [if_pos hgt]

/-- Claim C5 witness: concrete instantiation of the at-or-below branch. -/
theorem c5_threshold_direction_witness :
    [S3Pfx.jsonlTC "webconnectivity" "IT", S3Pfx.rawDay 737718, S3Pfx.rawDay 737719]
      = get_search_prefixes catZero ["webconnectivity"] ["IT"]
        ++ ([737718, 737719].map S3Pfx.rawDay) := by
  have h := c5_threshold_direction catZero 737800 ["IT"] ["webconnectivity"] 737718 737720
    [S3Pfx.jsonlTC "webconnectivity" "IT", S3Pfx.rawDay 737718, S3Pfx.rawDay 737719]
    [737718, 737719] [737718, 737719] (by decide) rfl rfl rfl
  exact h.1 (by decide)

/-- Claim C6 counterexample: a catalog entry that satisfies the filter
predicate (country unconstrained, test name in the filter, day inside the
range) but has size 0 is omitted from the output of `jsonl_in_range`, so
the completeness half of the claim fails. -/
theorem c6_filter_completeness_cex :
    jsonl_in_range catZero 737800 [] ["webconnectivity"] 737718 737720 = .ok []
    ∧ (parse_file_entry cexObjZero).matches_filter [] ["webconnectivity"] = true
    ∧ 737718 ≤ (parse_file_entry cexObjZero).day
    ∧ (parse_file_entry cexObjZero).day < 737720
    ∧ (parse_file_entry cexObjZero).ext = "jsonl.gz" := by
  refine ⟨rfl, rfl, by decide, by decide, rfl⟩

/-- Claim C6 (amended): soundness holds — every emitted `FileEntry`
satisfies the filter predicate (and additionally has extension `jsonl.gz`
and positive size) — but completeness holds only for the catalog entries
that lie under one of the prefixes `get_jsonl_prefixes` enumerates and
additionally have extension `jsonl.gz` and positive size; entries of
size 0, non-`jsonl.gz` entries, and (since no `jsonl/` prefix is listed
when `start_day ≥ 2020-10-21`) all `jsonl/` entries of such queries are
omitted even when they satisfy the predicate. -/
theorem c6_filter_soundness_completeness (catalog : List CatalogObj) (today : Nat)
    (ccs tns : List String) (s e : Nat) (out : List FileEntry) (ps : List S3Pfx)
    (h1 : jsonl_in_range catalog today ccs tns s e = .ok out)
    (h2 : get_jsonl_prefixes catalog today ccs tns s e = .ok ps) :
    (∀ fe ∈ out, fe.matches_filter ccs tns = true ∧ s ≤ fe.day ∧ fe.day < e
        ∧ fe.ext = "jsonl.gz" ∧ 0 < fe.size)
    ∧ (∀ o ∈ catalog, ∀ p ∈ ps, o.loc.under p = true →
        (parse_file_entry o).matches_filter ccs tns = true →
        (parse_file_entry o).ext = "jsonl.gz" →
        s ≤ (parse_file_entry o).day → (parse_file_entry o).day < e → 0 < o.size →
        parse_file_entry o ∈ out) := by
  have hout : out = (ps.flatMap (list_file_entries catalog)).filter fun fe =>
      fe.ext == "jsonl.gz" && fe.matches_filter ccs tns &&
      decide (s ≤ fe.day) && decide (fe.day < e) && decide (0 < fe.size) := by
    unfold jsonl_in_range at h1
    rw [h2, except_bind_ok] at h1
    exact ((Except.ok.injEq _ _).mp h1).symm
  subst hout
  constructor
  · intro fe hfe
    have hcond := (List.mem_filter.mp hfe).2
    simp only [Bool.and_eq_true, beq_iff_eq, decide_eq_true_eq] at hcond
    exact ⟨hcond.1.1.1.2, hcond.1.1.2, hcond.1.2, hcond.1.1.1.1, hcond.2⟩
  · intro o ho p hp hunder hm hext hs3 he3 hsize
    refine List.mem_filter.mpr ⟨?_, ?_⟩
    · refine List.mem_flatMap.mpr ⟨p, hp, ?_⟩
      unfold list_file_entries
      exact List.mem_map.mpr ⟨o, List.mem_filter.mpr ⟨ho, hunder⟩, rfl⟩
    · simp only [Bool.and_eq_true, beq_iff_eq, decide_eq_true_eq]
      exact ⟨⟨⟨⟨hext, hm⟩, hs3⟩, he3⟩, hsize⟩

/-- Claim C6 witness: a positive-size matching entry under a listed
prefix is emitted, and the soundness conjuncts hold of it. -/
theorem c6_filter_witness :
    parse_file_entry cexObj100
        ∈ [parse_file_entry cexObj100]
    ∧ (parse_file_entry cexObj100).matches_filter [] ["webconnectivity"] = true
    ∧ 0 < (parse_file_entry cexObj100).size := by
  have h := c6_filter_soundness_completeness cat100 737800 [] ["webconnectivity"]
    737718 737720 [parse_file_entry cexObj100]
    [S3Pfx.jsonlTC "webconnectivity" "IT", S3Pfx.rawDay 737718, S3Pfx.rawDay 737719]
    rfl rfl
  refine ⟨?_, ?_, ?_⟩
  · exact h.2 cexObj100 (by decide) (S3Pfx.jsonlTC "webconnectivity" "IT") (by decide)
      rfl rfl rfl (by decide) (by decide) (by decide)
  · exact (h.1 (parse_file_entry cexObj100) (by decide)).1
  · exact (h.1 (parse_file_entry cexObj100) (by decide)).2.2.2.2
